import Mathlib

/-
Verification of `src/code_execution.py` (heroku/mcp-code-exec-ruby).

The module is embedded shallowly: subprocess behaviour is abstracted by a
`World` oracle that decides, for each spawned command, whether it completes,
times out, or raises; filesystem and process side effects are recorded in an
event trace.  Exceptions are modelled with `Except String`.  Each Python
function becomes a Lean function of the same name returning its value
together with the list of side-effect events it performed, in order.
-/

set_option autoImplicit false

namespace CodeExec

/-- Result dictionary of one subprocess invocation:
`{"returncode": ..., "stdout": ..., "stderr": ...}`. -/
structure CommandResult where
  returncode : Int
  stdout : String
  stderr : String
deriving Repr, DecidableEq

/-- Outcome chosen by the operating system for a `subprocess.run` call made
with a `timeout=` argument: the child completes, the timeout expires (the
partial output captured so far is discarded by the handler), or spawning or
running raises some other exception (for example `FileNotFoundError`). -/
inductive SpawnOutcome where
  | completed (returncode : Int) (stdout stderr : String)
  | timedOut (partialStdout partialStderr : String)
  | raised (msg : String)
deriving Repr, DecidableEq

/-- Outcome of a `subprocess.run` call made without a `timeout=` argument:
such a call can never raise `TimeoutExpired`. -/
inductive UntimedOutcome where
  | completed (returncode : Int) (stdout stderr : String)
  | raised (msg : String)
deriving Repr, DecidableEq

/-- A process environment (`os.environ` and dicts derived from it), as an
association list in which the first binding for a key wins. -/
abbrev Env : Type := List (String × String)

/-- Python dict assignment `e[k] = v`: the new binding shadows (replaces)
any previous binding of `k`. -/
def envSet (e : Env) (k v : String) : Env :=
  (k, v) :: e.filter (fun p => p.1 != k)

/-- Python dict lookup `e.get(k)`: first binding for `k`, if any. -/
def envGet? (e : Env) (k : String) : Option String :=
  (e.find? (fun p => p.1 == k)).map (fun p => p.2)

/-- Decidable equality for `Except`, needed to evaluate results in
concrete witnesses. -/
def exceptDecEq {ε α : Type} [DecidableEq ε] [DecidableEq α] :
    DecidableEq (Except ε α)
  | .error e, .error f =>
    if h : e = f then isTrue (by rw [h])
    else isFalse (fun hh => h (Except.error.inj hh))
  | .error _, .ok _ => isFalse (fun hh => Except.noConfusion hh)
  | .ok _, .error _ => isFalse (fun hh => Except.noConfusion hh)
  | .ok a, .ok b =>
    if h : a = b then isTrue (by rw [h])
    else isFalse (fun hh => h (Except.ok.inj hh))

instance {ε α : Type} [DecidableEq ε] [DecidableEq α] : DecidableEq (Except ε α) :=
  exceptDecEq

/-- Python whitespace as recognized by `str.strip()`. -/
def isPySpace (c : Char) : Bool :=
  c == ' ' || c == '\t' || c == '\n' || c == '\r' || c == '\x0b' || c == '\x0c'

/-- Python `str.strip()`: remove leading and trailing whitespace. -/
def strip (s : String) : String :=
  ⟨(((s.data.dropWhile isPySpace).reverse.dropWhile isPySpace).reverse)⟩

/-- `os.path.join` for the simple relative second components used here. -/
def pathJoin (a b : String) : String := a ++ "/" ++ b

/-- `os.path.expanduser`: replace a leading `~` with the home directory. -/
def expanduser (home s : String) : String :=
  match s.data with
  | '~' :: rest => home ++ ⟨rest⟩
  | _ => s

/-- Side effects performed by the module, in order: process spawns (with the
`env=` argument and the `timeout=` argument of the `subprocess.run` call),
`tempfile.mkdtemp`, writing the script file, and `shutil.rmtree`. -/
inductive Event where
  | spawn (cmd : List String) (env : Option Env) (timeout : Option Nat)
  | mkdtemp (dir : String)
  | writeFile (path : String) (contents : String)
  | rmtree (dir : String)
deriving Repr, DecidableEq

/-- The ambient state an execution runs against: what the OS does for each
spawn (timed and untimed variants), the host environment `os.environ`, the
home directory, the fresh directory name `tempfile.mkdtemp` produces, and
whether writing the script file succeeds (`none`) or raises (`some msg`). -/
structure World where
  spawn : List String → Option Env → Nat → SpawnOutcome
  spawnUntimed : List String → Option Env → UntimedOutcome
  hostEnv : Env
  home : String
  tempDirName : String
  writeOutcome : String → String → Option String

/-- `run_command(cmd, env)`: runs the command with `timeout=60`, returning
the stripped outputs on completion, the fixed timeout sentinel on
`TimeoutExpired`, and propagating any other exception. -/
def run_command (w : World) (cmd : List String) (env : Option Env) :
    Except String CommandResult × List Event :=
  match w.spawn cmd env 60 with
  | .completed rc out err =>
      (.ok ⟨rc, strip out, strip err⟩, [.spawn cmd env (some 60)])
  | .timedOut _ _ =>
      (.ok ⟨-2, "", "Error: Execution timed out"⟩, [.spawn cmd env (some 60)])
  | .raised msg =>
      (.error msg, [.spawn cmd env (some 60)])

/-- `install_dependencies(packages, install_cmd_path="gem", env=None)`:
no-op success when `packages` is falsy, otherwise a `gem install`
invocation, with `--user-install` exactly when `env is None`. -/
def install_dependencies (w : World) (packages : Option (List String))
    (install_cmd_path : String) (env : Option Env) :
    Except String CommandResult × List Event :=
  match packages with
  | none => (.ok ⟨0, "", ""⟩, [])
  | some [] => (.ok ⟨0, "", ""⟩, [])
  | some ps =>
      let commands := match env with
        | none => [install_cmd_path, "install", "--user-install"]
        | some _ => [install_cmd_path, "install"]
      run_command w (commands ++ ps) env

/-- `gem_already_installed(gem_name, env=None)`: runs `gem list -i` without
a timeout (exceptions propagate, timeouts cannot occur) and reports whether
it exited 0 with stripped stdout exactly `"true"`. -/
def gem_already_installed (w : World) (gem_name : String) (env : Option Env) :
    Except String Bool × List Event :=
  match w.spawnUntimed ["gem", "list", "-i", gem_name] env with
  | .completed rc out _ =>
      (.ok (rc == 0 && strip out == "true"),
       [.spawn ["gem", "list", "-i", gem_name] env none])
  | .raised msg =>
      (.error msg, [.spawn ["gem", "list", "-i", gem_name] env none])

/-- Environment built inside `run_in_tempdir`: a copy of `os.environ` with
`GEM_HOME` and `GEM_PATH` set to `<temp_dir>/.gem` and `PATH` prefixed with
`<temp_dir>/.gem/bin`; reading a missing `PATH` raises `KeyError`. -/
def isolatedEnv (hostEnv : Env) (temp_dir : String) : Except String Env :=
  let gem_home := pathJoin temp_dir ".gem"
  let env := envSet (envSet hostEnv "GEM_HOME" gem_home) "GEM_PATH" gem_home
  match envGet? env "PATH" with
  | none => .error "KeyError: PATH"
  | some p => .ok (envSet env "PATH" (pathJoin gem_home "bin" ++ ":" ++ p))

/-- `run_in_tempdir(code, packages)`: make a fresh temporary directory,
build the isolated environment, install the gems with it, stop with the
wrapped failure on a non-zero install status, otherwise write the script
and run `ruby` on it; the `finally` clause removes the directory on every
exit path, exceptional or not. -/
def run_in_tempdir (w : World) (code : String) (packages : Option (List String)) :
    Except String CommandResult × List Event :=
  let temp_dir := w.tempDirName
  let body : Except String CommandResult × List Event :=
    match isolatedEnv w.hostEnv temp_dir with
    | .error e => (.error e, [])
    | .ok env =>
        let inst := install_dependencies w packages "gem" (some env)
        match inst.1 with
        | .error e => (.error e, inst.2)
        | .ok r =>
            if r.returncode ≠ 0 then
              (.ok ⟨r.returncode, r.stdout,
                    "Dependency install failed:\n" ++ r.stderr⟩, inst.2)
            else
              let temp_path := pathJoin temp_dir "script.rb"
              match w.writeOutcome temp_path code with
              | some e => (.error e, inst.2)
              | none =>
                  let run := run_command w ["ruby", temp_path] (some env)
                  (run.1, inst.2 ++ [Event.writeFile temp_path code] ++ run.2)
  (body.1, Event.mkdtemp temp_dir :: body.2 ++ [Event.rmtree temp_dir])

/-- The list comprehension
`[pkg for pkg in packages if not gem_already_installed(pkg)]`, evaluated
left to right; an exception from a query aborts the comprehension. -/
def filterNotInstalled (w : World) : List String → Except String (List String) × List Event
  | [] => (.ok [], [])
  | p :: ps =>
      let q := gem_already_installed w p none
      match q.1 with
      | .error e => (.error e, q.2)
      | .ok b =>
          let rest := filterNotInstalled w ps
          match rest.1 with
          | .error e => (.error e, q.2 ++ rest.2)
          | .ok l => (.ok (if b then l else p :: l), q.2 ++ rest.2)

/-- The `if packages:` filtering step of the shared path: falsy package
lists are left untouched, otherwise the already-installed gems are dropped. -/
def sharedFilter (w : World) (packages : Option (List String)) :
    Except String (Option (List String)) × List Event :=
  match packages with
  | none => (.ok none, [])
  | some [] => (.ok (some []), [])
  | some ps =>
      let f := filterNotInstalled w ps
      (f.1.map some, f.2)

/-- The shared (non-temp-dir) branch of `code_exec_ruby`: filter the
packages, install with no environment override, stop with the wrapped
failure on a non-zero install status, otherwise run `ruby -e code` with a
copy of the host environment whose `GEM_HOME` is `~/.gem`. -/
def sharedExec (w : World) (code : String) (packages : Option (List String)) :
    Except String CommandResult × List Event :=
  let filtered := sharedFilter w packages
  match filtered.1 with
  | .error e => (.error e, filtered.2)
  | .ok pkgs =>
      let inst := install_dependencies w pkgs "gem" none
      match inst.1 with
      | .error e => (.error e, filtered.2 ++ inst.2)
      | .ok r =>
          if r.returncode ≠ 0 then
            (.ok ⟨r.returncode, r.stdout,
                  "Dependency install failed:\n" ++ r.stderr⟩,
             filtered.2 ++ inst.2)
          else
            let env := envSet w.hostEnv "GEM_HOME" (expanduser w.home "~/.gem")
            let run := run_command w ["ruby", "-e", code] (some env)
            (run.1, filtered.2 ++ inst.2 ++ run.2)

/-- `code_exec_ruby(code, packages=None)`: the public entry point.  Its only
parameters are `code` and `packages`; the branch between the isolated and
the shared path is decided by the module-level configuration value
`config.USE_TEMP_DIR` (the `config` module is outside this file), passed
here explicitly as `cfg_USE_TEMP_DIR`. -/
def code_exec_ruby (w : World) (cfg_USE_TEMP_DIR : Bool) (code : String)
    (packages : Option (List String)) :
    Except String CommandResult × List Event :=
  if cfg_USE_TEMP_DIR then run_in_tempdir w code packages
  else sharedExec w code packages

/-- Recognizes a spawn of the Ruby interpreter. -/
def spawnsRuby : Event → Bool
  | .spawn cmd _ _ => cmd.head? == some "ruby"
  | _ => false

/-- Recognizes a `gem list` already-installed query spawn. -/
def isInstalledQuery : Event → Bool
  | .spawn cmd _ _ => cmd.take 2 == ["gem", "list"]
  | _ => false

/-- Recognizes a `gem install` spawn. -/
def isInstallSpawn : Event → Bool
  | .spawn cmd _ _ => cmd.take 2 == ["gem", "install"]
  | _ => false

/-- Recognizes any process spawn. -/
def isSpawn : Event → Bool
  | .spawn _ _ _ => true
  | _ => false

/-- The `env=` argument of a spawn event, when the event is a spawn. -/
def Event.envOf : Event → Option (Option Env)
  | .spawn _ env _ => some env
  | _ => none

/-- Truth value reported by the already-installed query for one gem, with
an exception counted as not-installed (used only to state which packages
the shared path keeps). -/
def installedTrue (w : World) (q : String) : Bool :=
  match (gem_already_installed w q none).1 with
  | .ok b => b
  | .error _ => false

/-- Concrete world in which every timed spawn expires: the child had
already printed `"partial output"` when the timeout fired. -/
def wTimeout : World :=
  { spawn := fun _ _ _ => .timedOut "partial output" "partial err"
    spawnUntimed := fun _ _ => .completed 0 "" ""
    hostEnv := [("PATH", "/usr/bin")]
    home := "/home/u"
    tempDirName := "/tmp/t"
    writeOutcome := fun _ _ => none }

/-- Concrete world in which every `gem install` exits 1 with output
`inst-out` / `inst-err`, every other spawn succeeds, and the
already-installed query reports not installed. -/
def wInstallFail : World :=
  { spawn := fun cmd _ _ =>
      if cmd.take 2 == ["gem", "install"] then .completed 1 "inst-out" "inst-err"
      else .completed 0 "" ""
    spawnUntimed := fun _ _ => .completed 1 "false" ""
    hostEnv := [("PATH", "/usr/bin")]
    home := "/home/u"
    tempDirName := "/tmp/t"
    writeOutcome := fun _ _ => none }

/-- Concrete world in which every spawn completes successfully with empty
output; the already-installed query answers `true` for gem `a` and not
installed for everything else. -/
def wOk : World :=
  { spawn := fun _ _ _ => .completed 0 "" ""
    spawnUntimed := fun cmd _ =>
      if cmd == ["gem", "list", "-i", "a"] then .completed 0 "true" ""
      else .completed 1 "false" ""
    hostEnv := [("PATH", "/usr/bin")]
    home := "/home/u"
    tempDirName := "/tmp/t"
    writeOutcome := fun _ _ => none }

/-- Concrete world in which spawning the Ruby interpreter raises
`FileNotFoundError` while every other spawn succeeds; the
already-installed query reports every gem installed. -/
def wRubyRaises : World :=
  { spawn := fun cmd _ _ =>
      if cmd.head? == some "ruby" then .raised "FileNotFoundError"
      else .completed 0 "" ""
    spawnUntimed := fun _ _ => .completed 0 "true" ""
    hostEnv := [("PATH", "/usr/bin")]
    home := "/home/u"
    tempDirName := "/tmp/t"
    writeOutcome := fun _ _ => none }

/-- Helper: a `run_command` call records exactly one spawn event, whatever
the outcome. -/
theorem run_command_events (w : World) (cmd : List String) (env : Option Env) :
    (run_command w cmd env).2 = [Event.spawn cmd env (some 60)] := by
  cases h : w.spawn cmd env 60 <;> simp [run_command, h]

/-- Helper: the last element of a cons-append-singleton list. -/
theorem getLast?_cons_append_singleton (a x : Event) (l : List Event) :
    (a :: (l ++ [x])).getLast? = some x := by
  rw [← List.cons_append, List.getLast?_concat]

/-- Helper: removing the bindings of key `k` does not change lookups of a
different key `k'`. -/
theorem find?_filter_ne (l : List (String × String)) (k k' : String) (h : k' ≠ k) :
    (l.filter (fun p => p.1 != k)).find? (fun p => p.1 == k') =
      l.find? (fun p => p.1 == k') := by
  induction l with
  | nil => rfl
  | cons hd tl ih =>
      by_cases hk : hd.1 = k
      · have h1 : (hd.1 != k) = false := by simp [hk]
        have h2 : (hd.1 == k') = false := by
          simp only [beq_eq_false_iff_ne, ne_eq]
          rw [hk]
          exact fun hh => h hh.symm
        simp [List.filter_cons, h1, List.find?_cons, h2, ih]
      · have h1 : (hd.1 != k) = true := by simp [hk]
        by_cases hk' : hd.1 = k'
        · have h2 : (hd.1 == k') = true := by simp [hk']
          simp [List.filter_cons, h1, List.find?_cons, h2]
        · have h2 : (hd.1 == k') = false := by simp [hk']
          simp [List.filter_cons, h1, List.find?_cons, h2, ih]

/-- Helper: dict assignment followed by lookup of the same key. -/
theorem envGet?_envSet_self (e : Env) (k v : String) :
    envGet? (envSet e k v) k = some v := by
  simp [envGet?, envSet, List.find?_cons]

/-- Helper: dict assignment does not change lookups of other keys. -/
theorem envGet?_envSet_ne (e : Env) (k k' v : String) (h : k' ≠ k) :
    envGet? (envSet e k v) k' = envGet? e k' := by
  have h2 : (k == k') = false := by
    simp only [beq_eq_false_iff_ne, ne_eq]
    exact fun hh => h hh.symm
  simp only [envGet?, envSet, List.find?_cons, h2]
  rw [find?_filter_ne e k k' h]

/-- Helper: with `PATH` present in the host environment, `isolatedEnv`
computes exactly the three overrides of the source. -/
theorem isolatedEnv_spec (hostEnv : Env) (td : String) (hp : String)
    (h : envGet? hostEnv "PATH" = some hp) :
    isolatedEnv hostEnv td =
      .ok (envSet (envSet (envSet hostEnv "GEM_HOME" (pathJoin td ".gem"))
            "GEM_PATH" (pathJoin td ".gem"))
            "PATH" (pathJoin (pathJoin td ".gem") "bin" ++ ":" ++ hp)) := by
  simp only [isolatedEnv]
  rw [envGet?_envSet_ne _ _ _ _ (by decide), envGet?_envSet_ne _ _ _ _ (by decide), h]

/-- Helper: the install step records either no event (falsy packages) or a
single `install` spawn carrying its `env` argument. -/
theorem install_dependencies_events (w : World) (ps : Option (List String))
    (icp : String) (env : Option Env) :
    (install_dependencies w ps icp env).2 = [] ∨
    ∃ rest, (install_dependencies w ps icp env).2 =
      [Event.spawn (icp :: "install" :: rest) env (some 60)] := by
  match ps with
  | none => exact Or.inl rfl
  | some [] => exact Or.inl rfl
  | some (p :: tl) =>
      refine Or.inr ?_
      cases env with
      | none =>
          exact ⟨"--user-install" :: p :: tl,
            run_command_events w ([icp, "install", "--user-install"] ++ (p :: tl)) none⟩
      | some e =>
          exact ⟨p :: tl,
            run_command_events w ([icp, "install"] ++ (p :: tl)) (some e)⟩

/-- Helper: the already-installed query records exactly one untimed
`gem list -i` spawn, whatever its outcome. -/
theorem gem_already_installed_events (w : World) (p : String) (env : Option Env) :
    (gem_already_installed w p env).2 = [Event.spawn ["gem", "list", "-i", p] env none] := by
  cases h : w.spawnUntimed ["gem", "list", "-i", p] env <;>
    simp [gem_already_installed, h]

/-- Helper: every event of the shared-path filtering step is an untimed
`gem list -i` query spawned with no environment override. -/
theorem filterNotInstalled_events_shape (w : World) (ps : List String) :
    ∀ e ∈ (filterNotInstalled w ps).2,
      ∃ q, e = Event.spawn ["gem", "list", "-i", q] none none := by
  induction ps with
  | nil => simp [filterNotInstalled]
  | cons p tl ih =>
      intro e he
      simp only [filterNotInstalled] at he
      rcases hq : (gem_already_installed w p none).1 with msg | b <;> rw [hq] at he
      · rw [gem_already_installed_events] at he
        simp at he
        exact ⟨p, he⟩
      · rcases hr : (filterNotInstalled w tl).1 with msg | l <;> rw [hr] at he <;>
          rw [gem_already_installed_events] at he <;>
          simp at he <;>
          rcases he with he | he
        · exact ⟨p, he⟩
        · exact ih e he
        · exact ⟨p, he⟩
        · exact ih e he

/-- Helper: when every already-installed query answers without raising, the
shared-path filtering keeps exactly the packages not reported installed. -/
theorem filterNotInstalled_ok (w : World) (ps : List String)
    (h : ∀ q ∈ ps, ∃ b, (gem_already_installed w q none).1 = .ok b) :
    (filterNotInstalled w ps).1 =
      .ok (ps.filter (fun q => !installedTrue w q)) := by
  induction ps with
  | nil => rfl
  | cons p tl ih =>
      obtain ⟨b, hb⟩ := h p (List.mem_cons_self p tl)
      have htl := ih (fun q hq => h q (List.mem_cons_of_mem _ hq))
      have hit : installedTrue w p = b := by
        simp [installedTrue, hb]
      simp only [filterNotInstalled, hb, htl, List.filter_cons, hit]
      cases b <;> simp

/-- Helper: isolated path when the install spawn raised. -/
theorem run_in_tempdir_eq_of_install_raise (w : World) (code : String)
    (ps : Option (List String)) (env : Env) (msg : String)
    (h : isolatedEnv w.hostEnv w.tempDirName = .ok env)
    (hinst : (install_dependencies w ps "gem" (some env)).1 = .error msg) :
    run_in_tempdir w code ps =
      (.error msg,
       Event.mkdtemp w.tempDirName :: (install_dependencies w ps "gem" (some env)).2
         ++ [Event.rmtree w.tempDirName]) := by
  simp only [run_in_tempdir, h, hinst]

/-- Helper: isolated path when the install step exits non-zero. -/
theorem run_in_tempdir_eq_of_install_fail (w : World) (code : String)
    (ps : Option (List String)) (env : Env) (rc : Int) (out err : String)
    (h : isolatedEnv w.hostEnv w.tempDirName = .ok env)
    (hinst : (install_dependencies w ps "gem" (some env)).1 = .ok ⟨rc, out, err⟩)
    (hrc : rc ≠ 0) :
    run_in_tempdir w code ps =
      (.ok ⟨rc, out, "Dependency install failed:\n" ++ err⟩,
       Event.mkdtemp w.tempDirName :: (install_dependencies w ps "gem" (some env)).2
         ++ [Event.rmtree w.tempDirName]) := by
  simp only [run_in_tempdir, h, hinst]
  simp [hrc]

/-- Helper: isolated path when writing the script file raises. -/
theorem run_in_tempdir_eq_of_write_raise (w : World) (code : String)
    (ps : Option (List String)) (env : Env) (out err msg : String)
    (h : isolatedEnv w.hostEnv w.tempDirName = .ok env)
    (hinst : (install_dependencies w ps "gem" (some env)).1 = .ok ⟨0, out, err⟩)
    (hw : w.writeOutcome (pathJoin w.tempDirName "script.rb") code = some msg) :
    run_in_tempdir w code ps =
      (.error msg,
       Event.mkdtemp w.tempDirName :: (install_dependencies w ps "gem" (some env)).2
         ++ [Event.rmtree w.tempDirName]) := by
  simp only [run_in_tempdir, h, hinst, hw]
  simp

/-- Helper: isolated path reaching the ruby run step. -/
theorem run_in_tempdir_eq_of_run (w : World) (code : String)
    (ps : Option (List String)) (env : Env) (out err : String)
    (h : isolatedEnv w.hostEnv w.tempDirName = .ok env)
    (hinst : (install_dependencies w ps "gem" (some env)).1 = .ok ⟨0, out, err⟩)
    (hw : w.writeOutcome (pathJoin w.tempDirName "script.rb") code = none) :
    run_in_tempdir w code ps =
      ((run_command w ["ruby", pathJoin w.tempDirName "script.rb"] (some env)).1,
       Event.mkdtemp w.tempDirName ::
         ((install_dependencies w ps "gem" (some env)).2
           ++ [Event.writeFile (pathJoin w.tempDirName "script.rb") code]
           ++ [Event.spawn ["ruby", pathJoin w.tempDirName "script.rb"] (some env) (some 60)])
         ++ [Event.rmtree w.tempDirName]) := by
  simp only [run_in_tempdir, h, hinst, hw]
  simp [run_command_events]

/-- Helper: shared path when the install step exits non-zero. -/
theorem sharedExec_eq_of_install_fail (w : World) (code : String)
    (ps fps : Option (List String)) (rc : Int) (out err : String)
    (hf : (sharedFilter w ps).1 = .ok fps)
    (hinst : (install_dependencies w fps "gem" none).1 = .ok ⟨rc, out, err⟩)
    (hrc : rc ≠ 0) :
    sharedExec w code ps =
      (.ok ⟨rc, out, "Dependency install failed:\n" ++ err⟩,
       (sharedFilter w ps).2 ++ (install_dependencies w fps "gem" none).2) := by
  simp only [sharedExec, hf, hinst]
  simp [hrc]

/-- Helper: shared path reaching the ruby run step. -/
theorem sharedExec_eq_of_run (w : World) (code : String)
    (ps fps : Option (List String)) (out err : String)
    (hf : (sharedFilter w ps).1 = .ok fps)
    (hinst : (install_dependencies w fps "gem" none).1 = .ok ⟨0, out, err⟩) :
    sharedExec w code ps =
      ((run_command w ["ruby", "-e", code]
          (some (envSet w.hostEnv "GEM_HOME" (expanduser w.home "~/.gem")))).1,
       (sharedFilter w ps).2 ++ (install_dependencies w fps "gem" none).2
         ++ [Event.spawn ["ruby", "-e", code]
              (some (envSet w.hostEnv "GEM_HOME" (expanduser w.home "~/.gem"))) (some 60)]) := by
  simp only [sharedExec, hf, hinst]
  simp [run_command_events]

/-- Helper: no install invocation spawns the Ruby interpreter. -/
theorem install_no_ruby (w : World) (ps : Option (List String)) (env : Option Env) :
    ∀ e ∈ (install_dependencies w ps "gem" env).2, spawnsRuby e = false := by
  rcases install_dependencies_events w ps "gem" env with h | ⟨rest, h⟩ <;> rw [h]
  · simp
  · intro e he
    simp at he
    subst he
    rfl

/-- Helper: no install invocation is an already-installed query. -/
theorem install_no_query (w : World) (ps : Option (List String)) (env : Option Env) :
    ∀ e ∈ (install_dependencies w ps "gem" env).2, isInstalledQuery e = false := by
  rcases install_dependencies_events w ps "gem" env with h | ⟨rest, h⟩ <;> rw [h]
  · simp
  · intro e he
    simp at he
    subst he
    rfl

/-- Helper: every spawn of an install invocation carries the `env` argument
given to `install_dependencies`. -/
theorem install_envOf (w : World) (ps : Option (List String)) (icp : String)
    (env : Option Env) :
    ∀ e ∈ (install_dependencies w ps icp env).2, Event.envOf e = some env := by
  rcases install_dependencies_events w ps icp env with h | ⟨rest, h⟩ <;> rw [h]
  · simp
  · intro e he
    simp at he
    subst he
    rfl

/-- Helper: filtering spawns no Ruby interpreter. -/
theorem filterNotInstalled_no_ruby (w : World) (ps : List String) :
    ∀ e ∈ (filterNotInstalled w ps).2, spawnsRuby e = false := by
  intro e he
  obtain ⟨q, hq⟩ := filterNotInstalled_events_shape w ps e he
  subst hq
  rfl

/-- Helper: every event of the shared filtering step is an untimed
`gem list -i` query with no environment override. -/
theorem sharedFilter_events_shape (w : World) (ps : Option (List String)) :
    ∀ e ∈ (sharedFilter w ps).2,
      ∃ q, e = Event.spawn ["gem", "list", "-i", q] none none := by
  match ps with
  | none => simp [sharedFilter]
  | some [] => simp [sharedFilter]
  | some (p :: tl) => exact filterNotInstalled_events_shape w (p :: tl)

/-- Helper: every event of an isolated execution is the mkdtemp, the
rmtree, the script write, an install event, or the ruby run spawn. -/
theorem run_in_tempdir_events_mem (w : World) (code : String)
    (ps : Option (List String)) (env : Env)
    (h : isolatedEnv w.hostEnv w.tempDirName = .ok env) :
    ∀ e ∈ (run_in_tempdir w code ps).2,
      e = Event.mkdtemp w.tempDirName ∨
      e = Event.rmtree w.tempDirName ∨
      e = Event.writeFile (pathJoin w.tempDirName "script.rb") code ∨
      e ∈ (install_dependencies w ps "gem" (some env)).2 ∨
      e = Event.spawn ["ruby", pathJoin w.tempDirName "script.rb"] (some env) (some 60) := by
  intro e he
  rcases hinst : (install_dependencies w ps "gem" (some env)).1 with msg | ⟨rc, out, err⟩
  · rw [run_in_tempdir_eq_of_install_raise w code ps env msg h hinst] at he
    simp at he
    tauto
  · by_cases hrc : rc ≠ 0
    · rw [run_in_tempdir_eq_of_install_fail w code ps env rc out err h hinst hrc] at he
      simp at he
      tauto
    · push_neg at hrc
      subst hrc
      cases hw : w.writeOutcome (pathJoin w.tempDirName "script.rb") code with
      | none =>
          rw [run_in_tempdir_eq_of_run w code ps env out err h hinst hw] at he
          simp at he
          tauto
      | some msg =>
          rw [run_in_tempdir_eq_of_write_raise w code ps env out err msg h hinst hw] at he
          simp at he
          tauto

/-- Helper: the isolated trace starts with the mkdtemp followed by the
install events, whatever happens afterwards. -/
theorem run_in_tempdir_events_split (w : World) (code : String)
    (ps : Option (List String)) (env : Env)
    (h : isolatedEnv w.hostEnv w.tempDirName = .ok env) :
    ∃ rest, (run_in_tempdir w code ps).2 =
      Event.mkdtemp w.tempDirName ::
        ((install_dependencies w ps "gem" (some env)).2 ++ rest) := by
  rcases hinst : (install_dependencies w ps "gem" (some env)).1 with msg | ⟨rc, out, err⟩
  · refine ⟨[Event.rmtree w.tempDirName], ?_⟩
    rw [run_in_tempdir_eq_of_install_raise w code ps env msg h hinst]
    rfl
  · by_cases hrc : rc ≠ 0
    · refine ⟨[Event.rmtree w.tempDirName], ?_⟩
      rw [run_in_tempdir_eq_of_install_fail w code ps env rc out err h hinst hrc]
      rfl
    · push_neg at hrc
      subst hrc
      cases hw : w.writeOutcome (pathJoin w.tempDirName "script.rb") code with
      | none =>
          refine ⟨[Event.writeFile (pathJoin w.tempDirName "script.rb") code,
                   Event.spawn ["ruby", pathJoin w.tempDirName "script.rb"] (some env) (some 60),
                   Event.rmtree w.tempDirName], ?_⟩
          rw [run_in_tempdir_eq_of_run w code ps env out err h hinst hw]
          simp
      | some msg =>
          refine ⟨[Event.rmtree w.tempDirName], ?_⟩
          rw [run_in_tempdir_eq_of_write_raise w code ps env out err msg h hinst hw]
          rfl

/-- Helper: every event of a shared execution is a filtering query event,
an install event for some package list, or the ruby run spawn with the
`GEM_HOME = ~/.gem` environment. -/
theorem sharedExec_events_mem (w : World) (code : String) (ps : Option (List String)) :
    ∀ e ∈ (sharedExec w code ps).2,
      e ∈ (sharedFilter w ps).2 ∨
      (∃ fps, e ∈ (install_dependencies w fps "gem" none).2) ∨
      e = Event.spawn ["ruby", "-e", code]
            (some (envSet w.hostEnv "GEM_HOME" (expanduser w.home "~/.gem"))) (some 60) := by
  intro e he
  rcases hf : (sharedFilter w ps).1 with msg | fps
  · have heq : sharedExec w code ps = (.error msg, (sharedFilter w ps).2) := by
      simp only [sharedExec, hf]
    rw [heq] at he
    exact Or.inl he
  · rcases hinst : (install_dependencies w fps "gem" none).1 with msg | ⟨rc, out, err⟩
    · have heq : sharedExec w code ps =
          (.error msg,
           (sharedFilter w ps).2 ++ (install_dependencies w fps "gem" none).2) := by
        simp only [sharedExec, hf, hinst]
      rw [heq] at he
      simp at he
      rcases he with he | he
      exacts [Or.inl he, Or.inr (Or.inl ⟨fps, he⟩)]
    · by_cases hrc : rc ≠ 0
      · rw [sharedExec_eq_of_install_fail w code ps fps rc out err hf hinst hrc] at he
        simp at he
        rcases he with he | he
        exacts [Or.inl he, Or.inr (Or.inl ⟨fps, he⟩)]
      · push_neg at hrc
        subst hrc
        rw [sharedExec_eq_of_run w code ps fps out err hf hinst] at he
        simp at he
        rcases he with he | he | he
        exacts [Or.inl he, Or.inr (Or.inl ⟨fps, he⟩), Or.inr (Or.inr he)]

/-- Helper: the shared path performs only process spawns — it never creates
or removes a directory and never writes a file. -/
theorem sharedExec_all_spawns (w : World) (code : String) (ps : Option (List String)) :
    ∀ e ∈ (sharedExec w code ps).2, isSpawn e = true := by
  intro e he
  rcases sharedExec_events_mem w code ps e he with h | ⟨fps, h⟩ | h
  · obtain ⟨q, hq⟩ := sharedFilter_events_shape w ps e h
    subst hq
    rfl
  · rcases install_dependencies_events w fps "gem" none with hh | ⟨rest, hh⟩ <;> rw [hh] at h
    · simp at h
    · simp at h
      subst h
      rfl
  · subst h
    rfl

/-- C1: for every isolated-mode execution — whatever the spawn outcomes,
write outcome, or environment, hence on the success path, the
dependency-install failure path, the non-zero execution path, and every
exception path — the temporary workspace is created first and its
recursive deletion is the last side effect before the call returns. -/
theorem c1_workspace_always_removed (w : World) (code : String)
    (packages : Option (List String)) :
    (run_in_tempdir w code packages).2.head? = some (Event.mkdtemp w.tempDirName) ∧
    (run_in_tempdir w code packages).2.getLast? = some (Event.rmtree w.tempDirName) := by
  exact ⟨rfl, getLast?_cons_append_singleton _ _ _⟩

/-- C2: whenever the child of a `run_command` invocation exceeds the fixed
60-unit timeout, the result is exactly
`{returncode: -2, stdout: "", stderr: "Error: Execution timed out"}`,
regardless of what the child had already printed. -/
theorem c2_timeout_sentinel (w : World) (cmd : List String) (env : Option Env)
    (pOut pErr : String) (h : w.spawn cmd env 60 = .timedOut pOut pErr) :
    run_command w cmd env =
      (.ok ⟨-2, "", "Error: Execution timed out"⟩, [.spawn cmd env (some 60)]) := by
  simp [run_command, h]

/-- Witness for C2 at a concrete timed-out command. -/
theorem c2_timeout_sentinel_witness :
    run_command wTimeout ["sleep", "100"] none =
      (.ok ⟨-2, "", "Error: Execution timed out"⟩,
       [.spawn ["sleep", "100"] none (some 60)]) :=
  c2_timeout_sentinel wTimeout ["sleep", "100"] none "partial output" "partial err" rfl

/-- C4: with `packages` empty or absent, `install_dependencies` returns
exactly `{returncode: 0, stdout: "", stderr: ""}` and spawns no
subprocess (its event trace is empty). -/
theorem c4_empty_packages_noop (w : World) (icp : String) (env : Option Env) :
    install_dependencies w none icp env = (.ok ⟨0, "", ""⟩, []) ∧
    install_dependencies w (some []) icp env = (.ok ⟨0, "", ""⟩, []) :=
  ⟨rfl, rfl⟩

/-- C7: for a non-empty package list, the built install invocation carries
`--user-install` exactly when no environment override is supplied, and
omits it whenever an explicit environment is supplied — so the flag and an
override never appear together. -/
theorem c7_user_install_flag (w : World) (p : String) (ps : List String)
    (icp : String) (e : Env) :
    (install_dependencies w (some (p :: ps)) icp none).2 =
      [Event.spawn ([icp, "install", "--user-install"] ++ (p :: ps)) none (some 60)] ∧
    (install_dependencies w (some (p :: ps)) icp (some e)).2 =
      [Event.spawn ([icp, "install"] ++ (p :: ps)) (some e) (some 60)] := by
  constructor
  · show (run_command w ([icp, "install", "--user-install"] ++ (p :: ps)) none).2 = _
    rw [run_command_events]
  · show (run_command w ([icp, "install"] ++ (p :: ps)) (some e)).2 = _
    rw [run_command_events]

/-- C3: on either path, a non-zero dependency-install status makes the
orchestrator return that status, the installer's stdout unchanged, and
stderr prefixed with `"Dependency install failed:\n"`, and the Ruby
interpreter is never spawned. -/
theorem c3_install_failure_blocks_run (w : World) (code : String)
    (ps : Option (List String)) (env : Env) (fps : Option (List String))
    (rc : Int) (out err : String) :
    (isolatedEnv w.hostEnv w.tempDirName = .ok env →
      (install_dependencies w ps "gem" (some env)).1 = .ok ⟨rc, out, err⟩ →
      rc ≠ 0 →
      (code_exec_ruby w true code ps).1 =
        .ok ⟨rc, out, "Dependency install failed:\n" ++ err⟩ ∧
      ∀ e ∈ (code_exec_ruby w true code ps).2, spawnsRuby e = false) ∧
    ((sharedFilter w ps).1 = .ok fps →
      (install_dependencies w fps "gem" none).1 = .ok ⟨rc, out, err⟩ →
      rc ≠ 0 →
      (code_exec_ruby w false code ps).1 =
        .ok ⟨rc, out, "Dependency install failed:\n" ++ err⟩ ∧
      ∀ e ∈ (code_exec_ruby w false code ps).2, spawnsRuby e = false) := by
  constructor
  · intro h hinst hrc
    have hceq : code_exec_ruby w true code ps = run_in_tempdir w code ps := rfl
    rw [hceq, run_in_tempdir_eq_of_install_fail w code ps env rc out err h hinst hrc]
    refine ⟨rfl, ?_⟩
    intro e he
    simp at he
    rcases he with he | he | he
    · subst he; rfl
    · exact install_no_ruby w ps (some env) e he
    · subst he; rfl
  · intro hf hinst hrc
    have hceq : code_exec_ruby w false code ps = sharedExec w code ps := rfl
    rw [hceq, sharedExec_eq_of_install_fail w code ps fps rc out err hf hinst hrc]
    refine ⟨rfl, ?_⟩
    intro e he
    simp at he
    rcases he with he | he
    · obtain ⟨q, hq⟩ := sharedFilter_events_shape w ps e he
      subst hq; rfl
    · exact install_no_ruby w fps none e he

/-- Witness for C3: a concrete failing install on both paths. -/
theorem c3_install_failure_blocks_run_witness :
    (code_exec_ruby wInstallFail true "puts 1" (some ["foo"])).1 =
      .ok ⟨1, "inst-out", "Dependency install failed:\ninst-err"⟩ ∧
    (code_exec_ruby wInstallFail false "puts 1" (some ["foo"])).1 =
      .ok ⟨1, "inst-out", "Dependency install failed:\ninst-err"⟩ :=
  ⟨((c3_install_failure_blocks_run wInstallFail "puts 1" (some ["foo"]) _ none
      1 "inst-out" "inst-err").1 rfl rfl (by decide)).1,
   ((c3_install_failure_blocks_run wInstallFail "puts 1" (some ["foo"]) []
      (some ["foo"]) 1 "inst-out" "inst-err").2 rfl rfl (by decide)).1⟩

/-- C5: the environment of every isolated-path execution is a copy of the
host environment in which `GEM_HOME` and `GEM_PATH` point at the
`.gem` directory inside the fresh workspace and `PATH` is the workspace's
gem `bin` directory prefixed to the inherited `PATH`; every process
spawned by the isolated path — install step and run step alike — receives
exactly this environment. -/
theorem c5_isolated_environment (w : World) (code : String)
    (ps : Option (List String)) (env : Env) (hp : String)
    (h0 : envGet? w.hostEnv "PATH" = some hp)
    (h : isolatedEnv w.hostEnv w.tempDirName = .ok env) :
    envGet? env "GEM_HOME" = some (pathJoin w.tempDirName ".gem") ∧
    envGet? env "GEM_PATH" = some (pathJoin w.tempDirName ".gem") ∧
    envGet? env "PATH" =
      some (pathJoin (pathJoin w.tempDirName ".gem") "bin" ++ ":" ++ hp) ∧
    (∀ k, k ≠ "GEM_HOME" → k ≠ "GEM_PATH" → k ≠ "PATH" →
      envGet? env k = envGet? w.hostEnv k) ∧
    (∀ e ∈ (run_in_tempdir w code ps).2, isSpawn e = true →
      Event.envOf e = some (some env)) := by
  have hspec := isolatedEnv_spec w.hostEnv w.tempDirName hp h0
  rw [h] at hspec
  have henv := Except.ok.inj hspec
  refine ⟨?_, ?_, ?_, ?_, ?_⟩
  · rw [henv, envGet?_envSet_ne _ _ _ _ (by decide),
      envGet?_envSet_ne _ _ _ _ (by decide), envGet?_envSet_self]
  · rw [henv, envGet?_envSet_ne _ _ _ _ (by decide), envGet?_envSet_self]
  · rw [henv, envGet?_envSet_self]
  · intro k hk1 hk2 hk3
    rw [henv, envGet?_envSet_ne _ _ _ _ hk3, envGet?_envSet_ne _ _ _ _ hk2,
      envGet?_envSet_ne _ _ _ _ hk1]
  · intro e he hsp
    rcases run_in_tempdir_events_mem w code ps env h e he with
      hc | hc | hc | hc | hc
    · subst hc; exact absurd hsp (by simp [isSpawn])
    · subst hc; exact absurd hsp (by simp [isSpawn])
    · subst hc; exact absurd hsp (by simp [isSpawn])
    · exact install_envOf w ps "gem" (some env) e hc
    · subst hc; rfl

/-- Witness for C5 at a concrete world: the computed isolated environment
and the environment carried by the concrete install spawn. -/
theorem c5_isolated_environment_witness :
    envGet? [("PATH", "/tmp/t/.gem/bin:/usr/bin"), ("GEM_PATH", "/tmp/t/.gem"),
             ("GEM_HOME", "/tmp/t/.gem")] "GEM_HOME" = some "/tmp/t/.gem" ∧
    Event.envOf (Event.spawn ["gem", "install", "a", "b"]
        (some [("PATH", "/tmp/t/.gem/bin:/usr/bin"), ("GEM_PATH", "/tmp/t/.gem"),
               ("GEM_HOME", "/tmp/t/.gem")]) (some 60)) =
      some (some [("PATH", "/tmp/t/.gem/bin:/usr/bin"), ("GEM_PATH", "/tmp/t/.gem"),
                  ("GEM_HOME", "/tmp/t/.gem")]) := by
  have hc := c5_isolated_environment wOk "puts 1" (some ["a", "b"]) _ "/usr/bin" rfl rfl
  exact ⟨hc.1, hc.2.2.2.2 _ (by decide) (by decide)⟩

/-- C6: the isolated path hands the installer the full requested package
list, unfiltered, as the spawn right after the workspace creation, and
performs no already-installed query; the shared path, when every query
answers, keeps exactly the packages the query does not report as
installed. -/
theorem c6_shared_filters_isolated_does_not (w : World) (code : String)
    (p : String) (ps : List String) (env : Env) :
    (isolatedEnv w.hostEnv w.tempDirName = .ok env →
      ((run_in_tempdir w code (some (p :: ps))).2)[1]? =
        some (Event.spawn ("gem" :: "install" :: p :: ps) (some env) (some 60)) ∧
      ∀ e ∈ (run_in_tempdir w code (some (p :: ps))).2, isInstalledQuery e = false) ∧
    ((∀ q ∈ p :: ps, ∃ b, (gem_already_installed w q none).1 = Except.ok b) →
      (sharedFilter w (some (p :: ps))).1 =
        .ok (some ((p :: ps).filter (fun q => !installedTrue w q)))) := by
  constructor
  · intro h
    have hev : (install_dependencies w (some (p :: ps)) "gem" (some env)).2 =
        [Event.spawn ("gem" :: "install" :: p :: ps) (some env) (some 60)] :=
      run_command_events w (["gem", "install"] ++ (p :: ps)) (some env)
    constructor
    · obtain ⟨rest, hsplit⟩ := run_in_tempdir_events_split w code (some (p :: ps)) env h
      rw [hsplit, hev]
      simp
    · intro e he
      rcases run_in_tempdir_events_mem w code (some (p :: ps)) env h e he with
        hc | hc | hc | hc | hc
      · subst hc; rfl
      · subst hc; rfl
      · subst hc; rfl
      · exact install_no_query w (some (p :: ps)) (some env) e hc
      · subst hc; rfl
  · intro hq
    have hf := filterNotInstalled_ok w (p :: ps) hq
    show ((filterNotInstalled w (p :: ps)).1.map some, _).1 = _
    rw [hf]
    rfl

/-- Witness for C6 at a concrete world where gem `a` is installed and gem
`b` is not: the isolated install spawn carries both, the shared filter
keeps only `b`. -/
theorem c6_shared_filters_isolated_does_not_witness :
    ((run_in_tempdir wOk "puts 1" (some ["a", "b"])).2)[1]? =
      some (Event.spawn ["gem", "install", "a", "b"]
        (some [("PATH", "/tmp/t/.gem/bin:/usr/bin"), ("GEM_PATH", "/tmp/t/.gem"),
               ("GEM_HOME", "/tmp/t/.gem")]) (some 60)) ∧
    isInstalledQuery (Event.mkdtemp "/tmp/t") = false ∧
    (sharedFilter wOk (some ["a", "b"])).1 = .ok (some ["b"]) := by
  have hc := c6_shared_filters_isolated_does_not wOk "puts 1" "a" ["b"]
      [("PATH", "/tmp/t/.gem/bin:/usr/bin"), ("GEM_PATH", "/tmp/t/.gem"),
       ("GEM_HOME", "/tmp/t/.gem")]
  have h1 := hc.1 rfl
  have h2 := hc.2 (by decide)
  exact ⟨h1.1, h1.2 _ (by decide), h2.trans (by decide)⟩

/-- C8 counterexample: the entry point has no per-call `isolated`
parameter — with identical call arguments (`code`, `packages`, nothing
else), the isolated path is or is not taken depending on the module-level
`config.USE_TEMP_DIR` value; in particular a call supplying no isolation
argument at all still takes the isolated path (a workspace is created)
when the configuration flag is true, contradicting "optional per-call
parameter with default false". -/
theorem c8_counterexample_no_per_call_flag :
    (code_exec_ruby wOk true "puts 1" none).2.head? = some (Event.mkdtemp "/tmp/t") ∧
    code_exec_ruby wOk true "puts 1" none ≠ code_exec_ruby wOk false "puts 1" none := by
  exact ⟨rfl, by decide⟩

/-- C8 (amended): the isolated path is taken exactly when the module-level
configuration flag `config.USE_TEMP_DIR` is true — with the flag true the
call begins by creating the workspace directory, with the flag false the
call performs only process spawns (no directory is ever created or
removed); no per-call `isolated` parameter exists. -/
theorem c8_amended_config_selects_path (w : World) (code : String)
    (ps : Option (List String)) :
    (code_exec_ruby w true code ps).2.head? = some (Event.mkdtemp w.tempDirName) ∧
    ∀ e ∈ (code_exec_ruby w false code ps).2, isSpawn e = true :=
  ⟨rfl, sharedExec_all_spawns w code ps⟩

/-- Witness for C8 (amended): with the flag true the concrete call creates
the workspace; with the flag false the concrete trace's ruby spawn is a
plain process spawn. -/
theorem c8_amended_config_selects_path_witness :
    (code_exec_ruby wOk true "puts 1" none).2.head? = some (Event.mkdtemp "/tmp/t") ∧
    isSpawn (Event.spawn ["ruby", "-e", "puts 1"]
      (some [("GEM_HOME", "/home/u/.gem"), ("PATH", "/usr/bin")]) (some 60)) = true := by
  have h := c8_amended_config_selects_path wOk "puts 1" none
  exact ⟨h.1, h.2 _ (by decide)⟩

/-- C9 counterexample: in a concrete shared-path run the install step is
spawned with `env = None` (no environment override — the trace's second
event), while the run step receives the `GEM_HOME = ~/.gem` environment
(the trace's third event); the two are different, so the install step is
not invoked with the environment later used for the run step. -/
theorem c9_counterexample_install_env :
    ((code_exec_ruby wOk false "puts 1" (some ["a", "b"])).2)[2]? =
      some (Event.spawn ["gem", "install", "--user-install", "b"] none (some 60)) ∧
    ((code_exec_ruby wOk false "puts 1" (some ["a", "b"])).2)[3]? =
      some (Event.spawn ["ruby", "-e", "puts 1"]
        (some [("GEM_HOME", "/home/u/.gem"), ("PATH", "/usr/bin")]) (some 60)) ∧
    (none : Option Env) ≠
      some [("GEM_HOME", "/home/u/.gem"), ("PATH", "/usr/bin")] := by
  refine ⟨by decide, by decide, by decide⟩

/-- C9 (amended): on the shared path the dependency-install step is
invoked with no environment override (inheriting the host environment and
relying on `--user-install` instead), and the copy of the host environment
with `GEM_HOME` pointed at `~/.gem` is built only for the run step. -/
theorem c9_amended_shared_envs (w : World) (code : String)
    (ps : Option (List String)) :
    ∀ e ∈ (code_exec_ruby w false code ps).2,
      (isInstallSpawn e = true → Event.envOf e = some none) ∧
      (spawnsRuby e = true → Event.envOf e =
        some (some (envSet w.hostEnv "GEM_HOME" (expanduser w.home "~/.gem")))) := by
  intro e he
  rcases sharedExec_events_mem w code ps e he with hc | ⟨fps, hc⟩ | hc
  · obtain ⟨q, hq⟩ := sharedFilter_events_shape w ps e hc
    subst hq
    exact ⟨(fun hh => nomatch hh), (fun hh => nomatch hh)⟩
  · rcases install_dependencies_events w fps "gem" none with hh | ⟨rest, hh⟩ <;>
      rw [hh] at hc
    · simp at hc
    · simp at hc
      subst hc
      exact ⟨(fun _ => rfl), (fun hh => nomatch hh)⟩
  · subst hc
    exact ⟨(fun hh => nomatch hh), (fun _ => rfl)⟩

/-- Witness for C9 (amended) at the concrete shared trace: the install
spawn carries no environment, the ruby spawn carries the `GEM_HOME`
environment. -/
theorem c9_amended_shared_envs_witness :
    Event.envOf (Event.spawn ["gem", "install", "--user-install", "b"] none (some 60)) =
      some none ∧
    Event.envOf (Event.spawn ["ruby", "-e", "puts 1"]
        (some [("GEM_HOME", "/home/u/.gem"), ("PATH", "/usr/bin")]) (some 60)) =
      some (some [("GEM_HOME", "/home/u/.gem"), ("PATH", "/usr/bin")]) := by
  have h1 := c9_amended_shared_envs wOk "puts 1" (some ["a", "b"])
      (Event.spawn ["gem", "install", "--user-install", "b"] none (some 60)) (by decide)
  have h2 := c9_amended_shared_envs wOk "puts 1" (some ["a", "b"])
      (Event.spawn ["ruby", "-e", "puts 1"]
        (some [("GEM_HOME", "/home/u/.gem"), ("PATH", "/usr/bin")]) (some 60)) (by decide)
  exact ⟨h1.1 (by decide), h2.2 (by decide)⟩

/-- C10: `run_command` converts only timeout expiry into a result — any
other exception while spawning or running the child propagates out of
`run_command`, and on the shared path it propagates out of the public
entry point. -/
theorem c10_exceptions_propagate (w : World) (cmd : List String)
    (env : Option Env) (msg : String) (code : String)
    (ps fps : Option (List String)) (out err : String) :
    (w.spawn cmd env 60 = .raised msg → (run_command w cmd env).1 = .error msg) ∧
    ((sharedFilter w ps).1 = .ok fps →
      (install_dependencies w fps "gem" none).1 = .ok ⟨0, out, err⟩ →
      w.spawn ["ruby", "-e", code]
          (some (envSet w.hostEnv "GEM_HOME" (expanduser w.home "~/.gem"))) 60 =
        .raised msg →
      (code_exec_ruby w false code ps).1 = .error msg) := by
  constructor
  · intro h
    simp [run_command, h]
  · intro hf hinst hr
    have hceq : code_exec_ruby w false code ps = sharedExec w code ps := rfl
    rw [hceq, sharedExec_eq_of_run w code ps fps out err hf hinst]
    simp [run_command, hr]

/-- Witness for C10: spawning ruby raises `FileNotFoundError`, the
exception propagates through the shared path of the entry point. -/
theorem c10_exceptions_propagate_witness :
    (run_command wRubyRaises ["ruby", "-e", "boom"] none).1 =
      .error "FileNotFoundError" ∧
    (code_exec_ruby wRubyRaises false "boom" (some ["foo"])).1 =
      .error "FileNotFoundError" :=
  ⟨(c10_exceptions_propagate wRubyRaises ["ruby", "-e", "boom"] none
      "FileNotFoundError" "boom" (some ["foo"]) (some []) "" "").1 rfl,
   (c10_exceptions_propagate wRubyRaises ["ruby", "-e", "boom"] none
      "FileNotFoundError" "boom" (some ["foo"]) (some []) "" "").2 rfl rfl rfl⟩

end CodeExec
